import Mathlib

/-!
Verification of the incremental Twitter-profile reconciliation job
(`user_script.py`) against its natural-language specification.

The script is embedded shallowly:
* `fetch_user_data` mirrors the response classifier (lines 29-74 of the
  source): it consumes an abstract HTTP outcome and produces the same
  `(data, success)` pair the Python function returns.
* `processRow` / `runLoop` mirror the body of the `for` loop in `main`
  (lines 187-234), including the run-scoped cache, the `processed_ids`
  skip, the rate-limit break with its flush, the periodic save every
  `save_interval` requests, and the catch-all that ends the loop on an
  unexpected exception.
* `finalize` mirrors the `finally` block (lines 238-284): the
  unconditional flush, the remaining-count computation, the table upload
  and the conditional report generation.
* `main` glues initialisation (download / read of the input, load of the
  previously persisted table) to the loop and the finaliser.  Both early
  `return` statements of the Python `main` (lines 138 and 150) exit the
  interpreter normally, which `processExitCode` records.

External effects (HTTP responses, raised exceptions, upload successes)
are supplied by the environment `Env`; the run-state carries a ghost
field `appended` listing every record appended during the run, and a
ghost `save_log` recording, for each save performed inside the loop, how
many successful appends had happened at that point.  Ghost fields are
never read by the modelled code.
-/

namespace UserScript

/-- One row of the output table: the six columns written by the script. -/
structure ProfileRecord where
  authorId : String
  followers_count : Option Nat
  following_count : Option Nat
  tweet_count : Option Nat
  listed_count : Option Nat
  data_exist : Bool
deriving DecidableEq, Repr

/-- The `public_metrics` object of a 200 response; each field may be absent. -/
structure PublicMetrics where
  followers_count : Option Nat
  following_count : Option Nat
  tweet_count : Option Nat
  listed_count : Option Nat
deriving DecidableEq, Repr

/-- What the transport layer hands back for one request: either a raised
`requests.RequestException`, or an HTTP response with a status code and
(for 200 responses) the metrics payload. -/
inductive ApiResponse where
  | requestException
  | httpResponse (status : Nat) (metrics : PublicMetrics)
deriving DecidableEq, Repr

/-- The `success` value of the Python function: `True`, `False`, or the
sentinel string `"rate_limited"`. -/
inductive FetchFlag where
  | success
  | failure
  | rate_limited
deriving DecidableEq, Repr

/-- `fetch_user_data` (source lines 29-74): classify the response.
200 builds a populated record, 429 returns the rate-limit sentinel,
404 and 403 build an empty-metrics record with `data_exist = False`,
anything else (or a transport exception) is a plain failure. -/
def fetch_user_data (user_id : String) (resp : ApiResponse) :
    Option ProfileRecord × FetchFlag :=
  match resp with
  | .requestException => (none, .failure)
  | .httpResponse status m =>
    if status = 200 then
      (some { authorId := user_id,
              followers_count := m.followers_count,
              following_count := m.following_count,
              tweet_count := m.tweet_count,
              listed_count := m.listed_count,
              data_exist := true }, .success)
    else if status = 429 then
      (none, .rate_limited)
    else if status = 404 then
      (some { authorId := user_id, followers_count := none,
              following_count := none, tweet_count := none,
              listed_count := none, data_exist := false }, .success)
    else if status = 403 then
      (some { authorId := user_id, followers_count := none,
              following_count := none, tweet_count := none,
              listed_count := none, data_exist := false }, .success)
    else
      (none, .failure)

/-- What the environment does when the loop fetches one input row: either
the transport yields an `ApiResponse`, or some unexpected exception is
raised out of the iteration (caught by the loop's `except`). -/
inductive FetchEvent where
  | resp (r : ApiResponse)
  | unexpectedError
deriving DecidableEq, Repr

/-- `save_interval = 100` (source line 182). -/
def save_interval : Nat := 100

/-- The mutable state of `main` during the loop.  `appended` and
`save_log` are ghost instrumentation (see module comment). -/
structure RunState where
  output_df : List ProfileRecord
  processed_ids : List String
  fetched_data_cache : List (String × ProfileRecord)
  new_data : List ProfileRecord
  request_count : Nat
  new_users_added_today : Nat
  mid_saves : Nat
  appended : List ProfileRecord
  save_log : List Nat
deriving DecidableEq, Repr

/-- Dictionary lookup in the run-scoped cache. -/
def cacheLookup : List (String × ProfileRecord) → String → Option ProfileRecord
  | [], _ => none
  | (k, v) :: rest, a => if k = a then some v else cacheLookup rest a

/-- Move `new_data` into `output_df` and write the table out
(`pd.concat` + `save_to_excel`, as at source lines 206-210, 230-234 and
241-246). -/
def flushSave (s : RunState) : RunState :=
  { s with output_df := s.output_df ++ s.new_data,
           new_data := [],
           mid_saves := s.mid_saves + 1,
           save_log := s.save_log ++ [s.new_users_added_today] }

/-- Record a successful outcome (source lines 216-220): buffer the row,
mark the identifier processed, bump the new-user counter. -/
def appendData (s : RunState) (user_id : String) (d : ProfileRecord) : RunState :=
  { s with new_data := s.new_data ++ [d],
           processed_ids := user_id :: s.processed_ids,
           new_users_added_today := s.new_users_added_today + 1,
           appended := s.appended ++ [d] }

/-- `request_count += 1` followed by the periodic checkpoint (source
lines 225-234): save when the request counter reaches a multiple of
`save_interval` and there is pending data. -/
def bumpAndMaybeSave (s : RunState) : RunState :=
  if (s.request_count + 1) % save_interval = 0 ∧ s.new_data ≠ [] then
    flushSave { s with request_count := s.request_count + 1 }
  else
    { s with request_count := s.request_count + 1 }

/-- How one loop iteration ended. -/
inductive LoopSignal where
  | nextRow
  | rateLimitBreak
  | exceptionCaught
deriving DecidableEq, Repr

/-- One iteration of the `for` loop (source lines 188-234) on the row
`user_id`, with the environment's behaviour for this row given by `ev`. -/
def processRow (s : RunState) (user_id : String) (ev : FetchEvent) :
    RunState × LoopSignal :=
  if user_id ∈ s.processed_ids then
    (s, .nextRow)
  else
    match cacheLookup s.fetched_data_cache user_id with
    | some cached =>
        (bumpAndMaybeSave (appendData s user_id cached), .nextRow)
    | none =>
        match ev with
        | .unexpectedError => (s, .exceptionCaught)
        | .resp r =>
          match fetch_user_data user_id r with
          | (_, .rate_limited) =>
              (if s.new_data = [] then s else flushSave s, .rateLimitBreak)
          | (some d, .success) =>
              (bumpAndMaybeSave (appendData
                { s with fetched_data_cache := (user_id, d) :: s.fetched_data_cache }
                user_id d), .nextRow)
          | (none, .success) => (s, .exceptionCaught)
          | (_, .failure) => (bumpAndMaybeSave s, .nextRow)

/-- Why the Running stage ended. -/
inductive StopReason where
  | exhausted
  | rateLimited
  | errored
deriving DecidableEq, Repr

/-- The whole `for` loop: fold `processRow` over the input rows, stopping
on the rate-limit break or on a caught exception. -/
def runLoop : RunState → List (String × FetchEvent) → RunState × StopReason
  | s, [] => (s, .exhausted)
  | s, (uid, ev) :: rest =>
    match processRow s uid ev with
    | (s1, .nextRow) => runLoop s1 rest
    | (s1, .rateLimitBreak) => (s1, .rateLimited)
    | (s1, .exceptionCaught) => (s1, .errored)

/-- The observable outcome of the `finally` block (source lines 238-284). -/
structure FinalResult where
  table : List ProfileRecord
  newRecords : List ProfileRecord
  new_users_added_today : Nat
  users_remaining : Nat
  request_count : Nat
  mid_saves : Nat
  save_log : List Nat
  finalSave : Bool
  uploadedTable : Bool
  reportWritten : Bool
  reportPublished : Bool
deriving DecidableEq, Repr

/-- The `finally` block: flush any remaining buffered rows, compute
`users_remaining = len(total_ids - set(output_df["Author ID"]))`, upload
the table, and only on a successful upload generate and upload the HTML
report.  `mid_saves` / `save_log` report the saves performed inside the
loop only. -/
def finalize (total_ids : List String) (s : RunState)
    (uploadTableOk uploadHtmlOk : Bool) : FinalResult :=
  let s2 := if s.new_data = [] then s else flushSave s
  let keys := s2.output_df.map (·.authorId)
  { table := s2.output_df,
    newRecords := s2.appended,
    new_users_added_today := s2.new_users_added_today,
    users_remaining :=
      ((total_ids.dedup).filter (fun id => decide (id ∉ keys))).length,
    request_count := s2.request_count,
    mid_saves := s.mid_saves,
    save_log := s.save_log,
    finalSave := decide (s.new_data ≠ []),
    uploadedTable := uploadTableOk,
    reportWritten := uploadTableOk,
    reportPublished := uploadTableOk && uploadHtmlOk }

/-- Everything the environment decides for one run. -/
structure Env where
  inputOk : Bool
  inputRows : List (String × FetchEvent)
  loadedTable : List ProfileRecord
  uploadTableOk : Bool
  uploadHtmlOk : Bool
deriving DecidableEq, Repr

/-- State at the top of the loop: the previously persisted table has been
loaded and its identifiers form the initial `processed_ids` set. -/
def initState (loaded : List ProfileRecord) : RunState :=
  { output_df := loaded,
    processed_ids := loaded.map (·.authorId),
    fetched_data_cache := [],
    new_data := [],
    request_count := 0,
    new_users_added_today := 0,
    mid_saves := 0,
    appended := [],
    save_log := [] }

/-- How a whole invocation of `main` ends: an early `return` because the
input blob could not be downloaded or read, or a completed run. -/
inductive MainOutcome where
  | inputFailure
  | completed (res : FinalResult) (stop : StopReason)
deriving DecidableEq, Repr

/-- `main` (source lines 132-286). -/
def main (env : Env) : MainOutcome :=
  if env.inputOk then
    let r := runLoop (initState env.loadedTable) env.inputRows
    .completed (finalize (env.inputRows.map Prod.fst) r.1
                  env.uploadTableOk env.uploadHtmlOk) r.2
  else
    .inputFailure

/-- The interpreter's exit status.  Both failure paths of the Python
`main` end in a plain `return` (lines 138 and 150) and no `sys.exit`
call exists anywhere, so every modelled path exits with status 0. -/
def processExitCode (env : Env) : Nat :=
  match main env with
  | .inputFailure => 0
  | .completed _ _ => 0

/-- Whether the run reached the `finally` block. -/
def reachesFinalizing (env : Env) : Bool :=
  match main env with
  | .inputFailure => false
  | .completed _ _ => true

/-- Convenience projection used by concrete counterexamples. -/
def mainResult (env : Env) : Option FinalResult :=
  match main env with
  | .inputFailure => none
  | .completed res _ => some res

/-- Convenience projection used by concrete counterexamples. -/
def mainStop (env : Env) : Option StopReason :=
  match main env with
  | .inputFailure => none
  | .completed _ stop => some stop

/-! ## Run invariants -/

/-- The spec's existence invariant for one record. -/
def NullInv (r : ProfileRecord) : Prop :=
  r.data_exist = false →
    r.followers_count = none ∧ r.following_count = none ∧
    r.tweet_count = none ∧ r.listed_count = none

/-- Structural invariants of the loop state, relative to the table `init`
that was loaded at the start of the run. -/
structure InvCore (init : List ProfileRecord) (s : RunState) : Prop where
  tableEq : s.output_df ++ s.new_data = init ++ s.appended
  countEq : s.appended.length = s.new_users_added_today
  appKeys : ∀ r ∈ s.appended, r.authorId ∈ s.processed_ids
  cacheOk : ∀ p ∈ s.fetched_data_cache, p.2.authorId = p.1 ∧ p.1 ∈ s.processed_ids
  nullAll : ∀ r ∈ s.appended, NullInv r
  initKeys : ∀ k ∈ init.map (·.authorId), k ∈ s.processed_ids
  appFresh : ∀ r ∈ s.appended, r.authorId ∉ init.map (·.authorId)

/-- Full invariant: the structural part plus the pending-data bound that
backs the checkpointing guarantee. -/
def Inv (init : List ProfileRecord) (s : RunState) : Prop :=
  InvCore init s ∧ s.new_data.length ≤ s.request_count % save_interval

/-! ## Concrete scenarios used to instantiate the theorems -/

/-- The state of the loop at the end of the Running stage. -/
def loopState (env : Env) : RunState :=
  (runLoop (initState env.loadedTable) env.inputRows).1

/-- The published outcome of a completed run. -/
def mainRes (env : Env) : FinalResult :=
  finalize (env.inputRows.map Prod.fst) (loopState env)
    env.uploadTableOk env.uploadHtmlOk

/-- A fully populated metrics payload. -/
def mFull : PublicMetrics := ⟨some 10, some 20, some 30, some 40⟩

/-- An empty metrics payload. -/
def mEmpty : PublicMetrics := ⟨none, none, none, none⟩

/-- Rate limit on the second of three identifiers. -/
def env1 : Env :=
  { inputOk := true,
    inputRows := [("1", .resp (.httpResponse 200 mFull)),
                  ("2", .resp (.httpResponse 429 mEmpty)),
                  ("3", .resp (.httpResponse 200 mFull))],
    loadedTable := [],
    uploadTableOk := true, uploadHtmlOk := true }

/-- One transport error followed by 99 found identifiers: 100 fetch
attempts but only 99 successful appends. -/
def rows2 : List (String × FetchEvent) :=
  ("0", .resp .requestException) ::
    (List.range 99).map (fun n => (toString (n + 1), .resp (.httpResponse 404 mEmpty)))

def env2 : Env :=
  { inputOk := true, inputRows := rows2, loadedTable := [],
    uploadTableOk := true, uploadHtmlOk := true }

/-- A previously persisted record whose identifier is not in the input list. -/
def recX : ProfileRecord := ⟨"X", none, none, none, none, false⟩

/-- Loaded table has a key outside the input list; the input identifier
is skipped by a transport error. -/
def env3 : Env :=
  { inputOk := true, inputRows := [("1", .resp .requestException)],
    loadedTable := [recX], uploadTableOk := true, uploadHtmlOk := true }

/-- A normal run used to instantiate the remaining-count equality. -/
def env3w : Env :=
  { inputOk := true, inputRows := [("1", .resp (.httpResponse 404 mEmpty))],
    loadedTable := [], uploadTableOk := true, uploadHtmlOk := true }

/-- The input blob cannot be downloaded. -/
def env4 : Env :=
  { inputOk := false, inputRows := [], loadedTable := [],
    uploadTableOk := true, uploadHtmlOk := true }

/-- An unexpected exception strikes on the second identifier, with one
appended record still buffered. -/
def env5 : Env :=
  { inputOk := true,
    inputRows := [("1", .resp (.httpResponse 200 mFull)), ("2", .unexpectedError)],
    loadedTable := [], uploadTableOk := true, uploadHtmlOk := true }

/-- A not-found identifier, recorded as non-existent. -/
def env7 : Env :=
  { inputOk := true, inputRows := [("7", .resp (.httpResponse 404 mEmpty))],
    loadedTable := [], uploadTableOk := true, uploadHtmlOk := true }

/-- The record `env7` appends. -/
def rec7 : ProfileRecord := ⟨"7", none, none, none, none, false⟩

/-- First run: the only identifier is skipped by a transport error. -/
def env8a : Env :=
  { inputOk := true, inputRows := [("1", .resp .requestException)],
    loadedTable := [], uploadTableOk := true, uploadHtmlOk := true }

/-- Second run over the unchanged input list, starting from the table the
first run produced; this time the fetch succeeds. -/
def env8b : Env :=
  { inputOk := true, inputRows := [("1", .resp (.httpResponse 200 mFull))],
    loadedTable := (mainRes env8a).table,
    uploadTableOk := true, uploadHtmlOk := true }

/-- A record already persisted for identifier `"1"`. -/
def rec8 : ProfileRecord := ⟨"1", some 10, some 20, some 30, some 40, true⟩

/-- A re-run whose loaded table already covers the whole input list. -/
def env8w : Env :=
  { inputOk := true, inputRows := [("1", .resp (.httpResponse 200 mFull))],
    loadedTable := [rec8], uploadTableOk := true, uploadHtmlOk := true }

/-- A loaded table with a key outside the input list, every fetch
succeeding. -/
def env9 : Env :=
  { inputOk := true, inputRows := [("1", .resp (.httpResponse 404 mEmpty))],
    loadedTable := [recX], uploadTableOk := true, uploadHtmlOk := true }

/-- A clean full run from an empty table, every fetch succeeding. -/
def env9w : Env :=
  { inputOk := true,
    inputRows := [("1", .resp (.httpResponse 200 mFull)),
                  ("2", .resp (.httpResponse 404 mEmpty))],
    loadedTable := [], uploadTableOk := true, uploadHtmlOk := true }

/-- The upload of the output table fails. -/
def env10 : Env :=
  { inputOk := true, inputRows := [("1", .resp (.httpResponse 404 mEmpty))],
    loadedTable := [], uploadTableOk := false, uploadHtmlOk := true }

theorem fetch_record_props (uid : String) (r : ApiResponse) (d : ProfileRecord)
    (fl : FetchFlag) (h : fetch_user_data uid r = (some d, fl)) :
    d.authorId = uid ∧ NullInv d := by
  cases r with
  | requestException => simp [fetch_user_data] at h
  | httpResponse status m =>
    simp only [fetch_user_data] at h
    split at h
    · injection h with h1 h2
      injection h1 with h1
      subst h1
      simp [NullInv]
    · split at h
      · injection h with h1 h2
        simp at h1
      · split at h
        · injection h with h1 h2
          injection h1 with h1
          subst h1
          simp [NullInv]
        · split at h
          · injection h with h1 h2
            injection h1 with h1
            subst h1
            simp [NullInv]
          · injection h with h1 h2
            simp at h1

theorem fetch_none_success (uid : String) (r : ApiResponse) :
    fetch_user_data uid r ≠ (none, .success) := by
  intro h
  cases r with
  | requestException => simp [fetch_user_data] at h
  | httpResponse status m =>
    simp only [fetch_user_data] at h
    repeat' split at h
    all_goals simp_all

theorem cacheLookup_mem : ∀ (l : List (String × ProfileRecord)) (a : String)
    (v : ProfileRecord), cacheLookup l a = some v → (a, v) ∈ l := by
  intro l
  induction l with
  | nil => intro a v h; simp [cacheLookup] at h
  | cons p rest ih =>
    intro a v h
    obtain ⟨k, w⟩ := p
    by_cases hk : k = a
    · subst hk
      simp [cacheLookup] at h
      subst h
      exact List.mem_cons_self _ _
    · simp [cacheLookup, hk] at h
      exact List.mem_cons_of_mem _ (ih a v h)

theorem invCore_flush {init : List ProfileRecord} {s : RunState}
    (h : InvCore init s) : InvCore init (flushSave s) := by
  refine ⟨?_, h.countEq, h.appKeys, h.cacheOk, h.nullAll, h.initKeys, h.appFresh⟩
  show (s.output_df ++ s.new_data) ++ [] = init ++ s.appended
  rw [List.append_nil]
  exact h.tableEq

theorem invCore_setCount {init : List ProfileRecord} {s : RunState} (n : Nat)
    (h : InvCore init s) : InvCore init { s with request_count := n } :=
  ⟨h.tableEq, h.countEq, h.appKeys, h.cacheOk, h.nullAll, h.initKeys, h.appFresh⟩

theorem invCore_bump {init : List ProfileRecord} {s : RunState}
    (h : InvCore init s) : InvCore init (bumpAndMaybeSave s) := by
  unfold bumpAndMaybeSave
  split
  · exact invCore_flush (invCore_setCount _ h)
  · exact invCore_setCount _ h

theorem invCore_append {init : List ProfileRecord} {s : RunState} {uid : String}
    {d : ProfileRecord} (h : InvCore init s) (hmem : uid ∉ s.processed_ids)
    (hid : d.authorId = uid) (hnl : NullInv d) :
    InvCore init (appendData
      { s with fetched_data_cache := (uid, d) :: s.fetched_data_cache } uid d) := by
  refine ⟨?_, ?_, ?_, ?_, ?_, ?_, ?_⟩
  · show s.output_df ++ (s.new_data ++ [d]) = init ++ (s.appended ++ [d])
    rw [← List.append_assoc, h.tableEq, List.append_assoc]
  · show (s.appended ++ [d]).length = s.new_users_added_today + 1
    rw [List.length_append, h.countEq]
    rfl
  · intro r hr
    rcases List.mem_append.mp hr with hr | hr
    · exact List.mem_cons_of_mem _ (h.appKeys r hr)
    · rw [List.mem_singleton] at hr
      subst hr
      rw [hid]
      exact List.mem_cons_self _ _
  · intro p hp
    rcases List.mem_cons.mp hp with hp | hp
    · subst hp
      exact ⟨hid, List.mem_cons_self _ _⟩
    · exact ⟨(h.cacheOk p hp).1, List.mem_cons_of_mem _ (h.cacheOk p hp).2⟩
  · intro r hr
    rcases List.mem_append.mp hr with hr | hr
    · exact h.nullAll r hr
    · rw [List.mem_singleton] at hr
      subst hr
      exact hnl
  · intro k hk
    exact List.mem_cons_of_mem _ (h.initKeys k hk)
  · intro r hr
    rcases List.mem_append.mp hr with hr | hr
    · exact h.appFresh r hr
    · rw [List.mem_singleton] at hr
      subst hr
      intro hin
      exact hmem (hid ▸ h.initKeys r.authorId hin)

theorem pend_bump {s : RunState}
    (h : s.new_data.length ≤ s.request_count % save_interval + 1) :
    (bumpAndMaybeSave s).new_data.length ≤
      (bumpAndMaybeSave s).request_count % save_interval := by
  unfold bumpAndMaybeSave
  split
  · simp [flushSave]
  · rename_i hcond
    rw [not_and_or] at hcond
    rcases hcond with hc | hc
    · simp only []
      unfold save_interval at *
      omega
    · rw [not_not] at hc
      simp [hc]

theorem inv_processRow {init : List ProfileRecord} {s : RunState} {uid : String}
    {ev : FetchEvent} {s1 : RunState} {sig : LoopSignal} (h : Inv init s)
    (hpr : processRow s uid ev = (s1, sig)) : Inv init s1 := by
  obtain ⟨hc, hp⟩ := h
  unfold processRow at hpr
  split at hpr
  · -- identifier already processed: state unchanged
    injection hpr with h1 h2
    subst h1
    exact ⟨hc, hp⟩
  · rename_i hmem
    split at hpr
    · -- cache hit: impossible, every cached identifier is already processed
      rename_i cached heq
      exact absurd ((hc.cacheOk _ (cacheLookup_mem _ _ _ heq)).2) hmem
    · cases ev with
      | unexpectedError =>
        dsimp only at hpr
        injection hpr with h1 h2
        subst h1
        exact ⟨hc, hp⟩
      | resp r =>
        dsimp only at hpr
        rcases hfe : fetch_user_data uid r with ⟨od, fl⟩
        rw [hfe] at hpr
        cases od with
        | none =>
          cases fl with
          | rate_limited =>
            dsimp only at hpr
            split at hpr <;> (injection hpr with h1 h2; subst h1)
            · exact ⟨hc, hp⟩
            · exact ⟨invCore_flush hc, by simp [flushSave]⟩
          | success =>
            dsimp only at hpr
            injection hpr with h1 h2
            subst h1
            exact ⟨hc, hp⟩
          | failure =>
            dsimp only at hpr
            injection hpr with h1 h2
            subst h1
            exact ⟨invCore_bump hc, pend_bump (le_trans hp (Nat.le_succ _))⟩
        | some d =>
          cases fl with
          | rate_limited =>
            dsimp only at hpr
            split at hpr <;> (injection hpr with h1 h2; subst h1)
            · exact ⟨hc, hp⟩
            · exact ⟨invCore_flush hc, by simp [flushSave]⟩
          | success =>
            dsimp only at hpr
            injection hpr with h1 h2
            subst h1
            obtain ⟨hid, hnl⟩ := fetch_record_props uid r d _ hfe
            refine ⟨invCore_bump (invCore_append hc hmem hid hnl), pend_bump ?_⟩
            show (s.new_data ++ [d]).length ≤ s.request_count % save_interval + 1
            rw [List.length_append]
            exact Nat.add_le_add_right hp 1
          | failure =>
            dsimp only at hpr
            injection hpr with h1 h2
            subst h1
            exact ⟨invCore_bump hc, pend_bump (le_trans hp (Nat.le_succ _))⟩

/-! ## Small projection lemmas -/

@[simp] theorem flushSave_appended (s : RunState) : (flushSave s).appended = s.appended := rfl

@[simp] theorem flushSave_processed (s : RunState) :
    (flushSave s).processed_ids = s.processed_ids := rfl

@[simp] theorem flushSave_cache (s : RunState) :
    (flushSave s).fetched_data_cache = s.fetched_data_cache := rfl

@[simp] theorem flushSave_new_users (s : RunState) :
    (flushSave s).new_users_added_today = s.new_users_added_today := rfl

@[simp] theorem flushSave_new_data (s : RunState) : (flushSave s).new_data = [] := rfl

@[simp] theorem flushSave_output (s : RunState) :
    (flushSave s).output_df = s.output_df ++ s.new_data := rfl

@[simp] theorem bump_appended (s : RunState) :
    (bumpAndMaybeSave s).appended = s.appended := by
  unfold bumpAndMaybeSave
  split <;> rfl

@[simp] theorem bump_processed (s : RunState) :
    (bumpAndMaybeSave s).processed_ids = s.processed_ids := by
  unfold bumpAndMaybeSave
  split <;> rfl

@[simp] theorem bump_cache (s : RunState) :
    (bumpAndMaybeSave s).fetched_data_cache = s.fetched_data_cache := by
  unfold bumpAndMaybeSave
  split <;> rfl

@[simp] theorem bump_new_users (s : RunState) :
    (bumpAndMaybeSave s).new_users_added_today = s.new_users_added_today := by
  unfold bumpAndMaybeSave
  split <;> rfl

@[simp] theorem bump_request (s : RunState) :
    (bumpAndMaybeSave s).request_count = s.request_count + 1 := by
  unfold bumpAndMaybeSave
  split <;> rfl

@[simp] theorem appendData_appended (s : RunState) (uid : String) (d : ProfileRecord) :
    (appendData s uid d).appended = s.appended ++ [d] := rfl

@[simp] theorem appendData_processed (s : RunState) (uid : String) (d : ProfileRecord) :
    (appendData s uid d).processed_ids = uid :: s.processed_ids := rfl

@[simp] theorem appendData_new_users (s : RunState) (uid : String) (d : ProfileRecord) :
    (appendData s uid d).new_users_added_today = s.new_users_added_today + 1 := rfl

/-! ## Step characterizations -/

theorem processRow_skip {s : RunState} {uid : String} (ev : FetchEvent)
    (hmem : uid ∈ s.processed_ids) : processRow s uid ev = (s, .nextRow) := by
  simp [processRow, hmem]

theorem processRow_success {init : List ProfileRecord} {s : RunState} {uid : String}
    {r : ApiResponse} {d : ProfileRecord} (hc : InvCore init s)
    (hmem : uid ∉ s.processed_ids)
    (hfe : fetch_user_data uid r = (some d, .success)) :
    processRow s uid (.resp r) =
      (bumpAndMaybeSave (appendData
        { s with fetched_data_cache := (uid, d) :: s.fetched_data_cache } uid d),
       .nextRow) := by
  unfold processRow
  rw [if_neg hmem]
  cases hcl : cacheLookup s.fetched_data_cache uid with
  | some cached => exact absurd ((hc.cacheOk _ (cacheLookup_mem _ _ _ hcl)).2) hmem
  | none =>
    dsimp only
    rw [hfe]

theorem processRow_appended {init : List ProfileRecord} {s : RunState} {uid : String}
    {ev : FetchEvent} {s1 : RunState} {sig : LoopSignal} (hc : InvCore init s)
    (hpr : processRow s uid ev = (s1, sig)) :
    ∃ d0, s1.appended = s.appended ++ d0 ∧ ∀ r ∈ d0, r.authorId = uid := by
  unfold processRow at hpr
  split at hpr
  · injection hpr with h1 h2
    subst h1
    exact ⟨[], by simp, by simp⟩
  · rename_i hmem
    split at hpr
    · rename_i cached heq
      exact absurd ((hc.cacheOk _ (cacheLookup_mem _ _ _ heq)).2) hmem
    · cases ev with
      | unexpectedError =>
        dsimp only at hpr
        injection hpr with h1 h2
        subst h1
        exact ⟨[], by simp, by simp⟩
      | resp r =>
        dsimp only at hpr
        rcases hfe : fetch_user_data uid r with ⟨od, fl⟩
        rw [hfe] at hpr
        cases od with
        | none =>
          cases fl with
          | rate_limited =>
            dsimp only at hpr
            split at hpr <;> (injection hpr with h1 h2; subst h1)
            · exact ⟨[], by simp, by simp⟩
            · exact ⟨[], by simp, by simp⟩
          | success =>
            dsimp only at hpr
            injection hpr with h1 h2
            subst h1
            exact ⟨[], by simp, by simp⟩
          | failure =>
            dsimp only at hpr
            injection hpr with h1 h2
            subst h1
            exact ⟨[], by simp, by simp⟩
        | some d =>
          cases fl with
          | rate_limited =>
            dsimp only at hpr
            split at hpr <;> (injection hpr with h1 h2; subst h1)
            · exact ⟨[], by simp, by simp⟩
            · exact ⟨[], by simp, by simp⟩
          | success =>
            dsimp only at hpr
            injection hpr with h1 h2
            subst h1
            refine ⟨[d], by simp [appendData], ?_⟩
            intro x hx
            rw [List.mem_singleton] at hx
            subst hx
            exact (fetch_record_props uid r x _ hfe).1
          | failure =>
            dsimp only at hpr
            injection hpr with h1 h2
            subst h1
            exact ⟨[], by simp, by simp⟩

theorem processRow_processed_sub {s : RunState} {uid : String} {ev : FetchEvent}
    {s1 : RunState} {sig : LoopSignal} (hpr : processRow s uid ev = (s1, sig)) :
    ∀ x ∈ s.processed_ids, x ∈ s1.processed_ids := by
  unfold processRow at hpr
  split at hpr
  · injection hpr with h1 h2
    subst h1
    exact fun x hx => hx
  · split at hpr
    · injection hpr with h1 h2
      subst h1
      intro x hx
      simp only [bump_processed, appendData_processed]
      exact List.mem_cons_of_mem _ hx
    · cases ev with
      | unexpectedError =>
        dsimp only at hpr
        injection hpr with h1 h2
        subst h1
        exact fun x hx => hx
      | resp r =>
        dsimp only at hpr
        rcases hfe : fetch_user_data uid r with ⟨od, fl⟩
        rw [hfe] at hpr
        cases od <;> cases fl <;> dsimp only at hpr
        · injection hpr with h1 h2
          subst h1
          exact fun x hx => hx
        · injection hpr with h1 h2
          subst h1
          intro x hx
          simpa only [bump_processed] using hx
        · split at hpr <;> (injection hpr with h1 h2; subst h1)
          · exact fun x hx => hx
          · intro x hx
            simpa only [flushSave_processed] using hx
        · injection hpr with h1 h2
          subst h1
          intro x hx
          simp only [bump_processed, appendData_processed]
          exact List.mem_cons_of_mem _ hx
        · injection hpr with h1 h2
          subst h1
          intro x hx
          simpa only [bump_processed] using hx
        · split at hpr <;> (injection hpr with h1 h2; subst h1)
          · exact fun x hx => hx
          · intro x hx
            simpa only [flushSave_processed] using hx

theorem processRow_rl {s : RunState} {uid : String} {ev : FetchEvent} {s1 : RunState}
    (hpr : processRow s uid ev = (s1, .rateLimitBreak)) :
    uid ∉ s.processed_ids ∧ s1.processed_ids = s.processed_ids ∧
      s1.appended = s.appended := by
  unfold processRow at hpr
  split at hpr
  · injection hpr with h1 h2
    exact absurd h2 (by simp)
  · rename_i hmem
    split at hpr
    · injection hpr with h1 h2
      exact absurd h2 (by simp)
    · cases ev with
      | unexpectedError =>
        dsimp only at hpr
        injection hpr with h1 h2
        exact absurd h2 (by simp)
      | resp r =>
        dsimp only at hpr
        rcases hfe : fetch_user_data uid r with ⟨od, fl⟩
        rw [hfe] at hpr
        cases od <;> cases fl <;> dsimp only at hpr
        · injection hpr with h1 h2
          exact absurd h2 (by simp)
        · injection hpr with h1 h2
          exact absurd h2 (by simp)
        · split at hpr <;> (injection hpr with h1 h2; subst h1) <;>
            exact ⟨hmem, by simp, by simp⟩
        · injection hpr with h1 h2
          exact absurd h2 (by simp)
        · injection hpr with h1 h2
          exact absurd h2 (by simp)
        · split at hpr <;> (injection hpr with h1 h2; subst h1) <;>
            exact ⟨hmem, by simp, by simp⟩

/-! ## Loop-level lemmas -/

theorem runLoop_nil (s : RunState) : runLoop s [] = (s, .exhausted) := rfl

theorem runLoop_cons_next {s s1 : RunState} {uid : String} {ev : FetchEvent}
    (rest : List (String × FetchEvent))
    (h : processRow s uid ev = (s1, .nextRow)) :
    runLoop s ((uid, ev) :: rest) = runLoop s1 rest := by
  simp only [runLoop]
  rw [h]

theorem runLoop_cons_rl {s s1 : RunState} {uid : String} {ev : FetchEvent}
    (rest : List (String × FetchEvent))
    (h : processRow s uid ev = (s1, .rateLimitBreak)) :
    runLoop s ((uid, ev) :: rest) = (s1, .rateLimited) := by
  simp only [runLoop]
  rw [h]

theorem runLoop_cons_err {s s1 : RunState} {uid : String} {ev : FetchEvent}
    (rest : List (String × FetchEvent))
    (h : processRow s uid ev = (s1, .exceptionCaught)) :
    runLoop s ((uid, ev) :: rest) = (s1, .errored) := by
  simp only [runLoop]
  rw [h]

theorem runLoop_inv {init : List ProfileRecord} :
    ∀ (rows : List (String × FetchEvent)) (s : RunState), Inv init s →
      Inv init (runLoop s rows).1 := by
  intro rows
  induction rows with
  | nil => intro s h; exact h
  | cons p rest ih =>
    intro s h
    obtain ⟨uid, ev⟩ := p
    rcases hpr : processRow s uid ev with ⟨s1, sig⟩
    have h1 : Inv init s1 := inv_processRow h hpr
    cases sig with
    | nextRow => rw [runLoop_cons_next rest hpr]; exact ih s1 h1
    | rateLimitBreak => rw [runLoop_cons_rl rest hpr]; exact h1
    | exceptionCaught => rw [runLoop_cons_err rest hpr]; exact h1

theorem runLoop_processed_sub :
    ∀ (rows : List (String × FetchEvent)) (s : RunState),
      ∀ x ∈ s.processed_ids, x ∈ ((runLoop s rows).1).processed_ids := by
  intro rows
  induction rows with
  | nil => intro s x hx; exact hx
  | cons p rest ih =>
    intro s x hx
    obtain ⟨uid, ev⟩ := p
    rcases hpr : processRow s uid ev with ⟨s1, sig⟩
    have hx1 : x ∈ s1.processed_ids := processRow_processed_sub hpr x hx
    cases sig with
    | nextRow => rw [runLoop_cons_next rest hpr]; exact ih s1 x hx1
    | rateLimitBreak => rw [runLoop_cons_rl rest hpr]; exact hx1
    | exceptionCaught => rw [runLoop_cons_err rest hpr]; exact hx1

theorem inv_init (loaded : List ProfileRecord) : Inv loaded (initState loaded) := by
  refine ⟨⟨?_, ?_, ?_, ?_, ?_, ?_, ?_⟩, ?_⟩ <;> simp [initState]

/-- If the loop stops on a rate limit, the input splits around the
rate-limited row: all records appended by the whole loop extension come
from earlier rows, and the rate-limited identifier was never processed. -/
theorem runLoop_rl_decomp {init : List ProfileRecord} :
    ∀ (rows : List (String × FetchEvent)) (s s' : RunState), Inv init s →
      runLoop s rows = (s', .rateLimited) →
      ∃ pre uid ev post d,
        rows = pre ++ (uid, ev) :: post ∧
        s'.appended = s.appended ++ d ∧
        (∀ r ∈ d, r.authorId ∈ pre.map Prod.fst) ∧
        uid ∉ s'.processed_ids := by
  intro rows
  induction rows with
  | nil =>
    intro s s' hI h
    rw [runLoop_nil] at h
    injection h with h1 h2
    exact absurd h2 (by simp)
  | cons p rest ih =>
    intro s s' hI h
    obtain ⟨u, e⟩ := p
    rcases hpr : processRow s u e with ⟨s1, sig⟩
    cases sig with
    | nextRow =>
      rw [runLoop_cons_next rest hpr] at h
      obtain ⟨pre, uid, ev, post, d, hrows, happ, hkeys, hu⟩ :=
        ih s1 s' (inv_processRow hI hpr) h
      obtain ⟨d0, happ0, hk0⟩ := processRow_appended hI.1 hpr
      refine ⟨(u, e) :: pre, uid, ev, post, d0 ++ d, ?_, ?_, ?_, hu⟩
      · rw [hrows]
        rfl
      · rw [happ, happ0, List.append_assoc]
      · intro x hx
        rcases List.mem_append.mp hx with hx | hx
        · rw [List.map_cons, hk0 x hx]
          exact List.mem_cons_self _ _
        · rw [List.map_cons]
          exact List.mem_cons_of_mem _ (hkeys x hx)
    | rateLimitBreak =>
      rw [runLoop_cons_rl rest hpr] at h
      injection h with h1 h2
      subst h1
      obtain ⟨hmem, hproc, happ⟩ := processRow_rl hpr
      refine ⟨[], u, e, rest, [], rfl, ?_, by simp, ?_⟩
      · rw [List.append_nil]
        exact happ
      · rw [hproc]
        exact hmem
    | exceptionCaught =>
      rw [runLoop_cons_err rest hpr] at h
      injection h with h1 h2
      exact absurd h2 (by simp)

/-- If every input identifier is already processed, the whole loop is a
no-op ending in exhaustion. -/
theorem runLoop_all_skipped :
    ∀ (rows : List (String × FetchEvent)) (s : RunState),
      (∀ p ∈ rows, p.1 ∈ s.processed_ids) → runLoop s rows = (s, .exhausted) := by
  intro rows
  induction rows with
  | nil => intro s _; rfl
  | cons p rest ih =>
    intro s h
    obtain ⟨u, e⟩ := p
    have hm : u ∈ s.processed_ids := h (u, e) (List.mem_cons_self _ _)
    rw [runLoop_cons_next rest (processRow_skip e hm)]
    exact ih s (fun q hq => h q (List.mem_cons_of_mem _ hq))

/-- If every row's fetch succeeds (no rate limit, no transport error),
the loop exhausts the input, appends exactly the not-yet-processed
identifiers in input order, and processes everything. -/
theorem runLoop_all_success {init : List ProfileRecord} :
    ∀ (rows : List (String × FetchEvent)) (s : RunState), Inv init s →
      (rows.map Prod.fst).Nodup →
      (∀ p ∈ rows, ∃ r, p.2 = FetchEvent.resp r ∧ (fetch_user_data p.1 r).2 = .success) →
      (runLoop s rows).2 = .exhausted ∧
      ((runLoop s rows).1).appended.map (·.authorId)
        = s.appended.map (·.authorId)
          ++ (rows.map Prod.fst).filter (fun id => decide (id ∉ s.processed_ids)) ∧
      (∀ x, x ∈ ((runLoop s rows).1).processed_ids ↔
        x ∈ s.processed_ids ∨ x ∈ rows.map Prod.fst) := by
  intro rows
  induction rows with
  | nil =>
    intro s hI hnd hall
    rw [runLoop_nil]
    exact ⟨rfl, by simp, fun x => by simp⟩
  | cons p rest ih =>
    intro s hI hnd hall
    obtain ⟨u, e⟩ := p
    obtain ⟨r, he, hsucc⟩ := hall (u, e) (List.mem_cons_self _ _)
    dsimp only at he
    subst he
    have hnd2 : (u :: rest.map Prod.fst).Nodup := by simpa using hnd
    obtain ⟨hu_not, hndrest⟩ := List.nodup_cons.mp hnd2
    have hallrest := fun q hq => hall q (List.mem_cons_of_mem _ hq)
    by_cases hmem : u ∈ s.processed_ids
    · rw [runLoop_cons_next rest (processRow_skip _ hmem)]
      obtain ⟨h1, h2, h3⟩ := ih s hI hndrest hallrest
      refine ⟨h1, ?_, ?_⟩
      · rw [h2]
        congr 1
        simp only [List.map_cons]
        rw [List.filter_cons]
        simp [hmem]
      · intro x
        rw [h3 x]
        simp only [List.map_cons, List.mem_cons]
        constructor
        · rintro (hx | hx)
          · exact Or.inl hx
          · exact Or.inr (Or.inr hx)
        · rintro (hx | hx | hx)
          · exact Or.inl hx
          · subst hx
            exact Or.inl hmem
          · exact Or.inr hx
    · rcases hfo : fetch_user_data u r with ⟨od, fl⟩
      have hfl : fl = .success := by
        rw [hfo] at hsucc
        exact hsucc
      subst hfl
      cases od with
      | none => exact absurd hfo (fetch_none_success u r)
      | some d =>
        have hstep := processRow_success hI.1 hmem hfo
        rw [runLoop_cons_next rest hstep]
        set s1 := bumpAndMaybeSave (appendData
          { s with fetched_data_cache := (u, d) :: s.fetched_data_cache } u d) with hs1
        have hI1 : Inv init s1 := inv_processRow hI hstep
        have hs1app : s1.appended = s.appended ++ [d] := by simp [hs1]
        have hs1proc : s1.processed_ids = u :: s.processed_ids := by simp [hs1]
        have hdid : d.authorId = u := (fetch_record_props u r d _ hfo).1
        obtain ⟨h1, h2, h3⟩ := ih s1 hI1 hndrest hallrest
        refine ⟨h1, ?_, ?_⟩
        · have hfc : List.filter (fun id => decide (id ∉ s1.processed_ids))
              (rest.map Prod.fst)
              = List.filter (fun id => decide (id ∉ s.processed_ids))
                (rest.map Prod.fst) := by
            apply List.filter_congr
            intro v hv
            have hvne : v ≠ u := fun hvu => hu_not (hvu ▸ hv)
            rw [decide_eq_decide, hs1proc]
            simp [List.mem_cons, hvne]
          rw [h2, hs1app, List.map_append, List.append_assoc]
          simp only [List.map_cons]
          rw [List.filter_cons]
          have hpu : decide (u ∉ s.processed_ids) = true := by simpa using hmem
          rw [hpu]
          simp only [if_true]
          congr 1
          rw [hfc]
          simp [hdid]
        · intro x
          rw [h3 x, hs1proc]
          simp only [List.map_cons, List.mem_cons]
          tauto

/-! ## Finalizer and main characterizations -/

theorem finalize_table (ids : List String) (s : RunState) (u1 u2 : Bool) :
    (finalize ids s u1 u2).table = s.output_df ++ s.new_data := by
  unfold finalize
  dsimp only
  split
  · rename_i hnd
    rw [hnd, List.append_nil]
  · rfl

theorem finalize_newRecords (ids : List String) (s : RunState) (u1 u2 : Bool) :
    (finalize ids s u1 u2).newRecords = s.appended := by
  unfold finalize
  dsimp only
  split <;> rfl

theorem finalize_new_users (ids : List String) (s : RunState) (u1 u2 : Bool) :
    (finalize ids s u1 u2).new_users_added_today = s.new_users_added_today := by
  unfold finalize
  dsimp only
  split <;> rfl

theorem finalize_request (ids : List String) (s : RunState) (u1 u2 : Bool) :
    (finalize ids s u1 u2).request_count = s.request_count := by
  unfold finalize
  dsimp only
  split <;> rfl

theorem finalize_remaining (ids : List String) (s : RunState) (u1 u2 : Bool) :
    (finalize ids s u1 u2).users_remaining =
      ((ids.dedup).filter (fun id =>
        decide (id ∉ (s.output_df ++ s.new_data).map (·.authorId)))).length := by
  unfold finalize
  dsimp only
  split
  · rename_i hnd
    rw [hnd, List.append_nil]
  · rfl

theorem finalize_flags (ids : List String) (s : RunState) (u1 u2 : Bool) :
    (finalize ids s u1 u2).uploadedTable = u1 ∧
    (finalize ids s u1 u2).reportWritten = u1 ∧
    (finalize ids s u1 u2).reportPublished = (u1 && u2) := by
  unfold finalize
  dsimp only
  exact ⟨rfl, rfl, rfl⟩

theorem main_eq (env : Env) (h : env.inputOk = true) :
    main env = .completed
      (finalize (env.inputRows.map Prod.fst)
        (runLoop (initState env.loadedTable) env.inputRows).1
        env.uploadTableOk env.uploadHtmlOk)
      (runLoop (initState env.loadedTable) env.inputRows).2 := by
  unfold main
  rw [h]
  rfl

theorem main_inputFailure (env : Env) (h : env.inputOk = false) :
    main env = .inputFailure := by
  unfold main
  rw [h]
  rfl

theorem main_completed_inv {env : Env} {res : FinalResult} {stop : StopReason}
    (h : main env = .completed res stop) :
    env.inputOk = true ∧
    res = finalize (env.inputRows.map Prod.fst)
      (runLoop (initState env.loadedTable) env.inputRows).1
      env.uploadTableOk env.uploadHtmlOk ∧
    stop = (runLoop (initState env.loadedTable) env.inputRows).2 := by
  cases hio : env.inputOk with
  | true =>
    rw [main_eq env hio] at h
    injection h with h1 h2
    exact ⟨rfl, h1.symm, h2.symm⟩
  | false =>
    rw [main_inputFailure env hio] at h
    exact absurd h (by simp)

/-! ## Claim C6 -/

/-- C6: `fetch_user_data` classifies the response exactly as specified:
200 yields a record populated from the response metrics with the
existence flag set, 404 yields a record with the flag cleared and all
metrics null, 403 is stored identically to 404, 429 yields the
rate-limit sentinel with no record, and any other status or a transport
failure yields a plain failure with no record. -/
theorem c6_fetch_outcome_mapping (uid : String) (m : PublicMetrics) (code : Nat) :
    fetch_user_data uid (.httpResponse 200 m) =
      (some { authorId := uid, followers_count := m.followers_count,
              following_count := m.following_count, tweet_count := m.tweet_count,
              listed_count := m.listed_count, data_exist := true }, .success) ∧
    fetch_user_data uid (.httpResponse 404 m) =
      (some { authorId := uid, followers_count := none, following_count := none,
              tweet_count := none, listed_count := none, data_exist := false },
       .success) ∧
    fetch_user_data uid (.httpResponse 403 m)
      = fetch_user_data uid (.httpResponse 404 m) ∧
    fetch_user_data uid (.httpResponse 429 m) = (none, .rate_limited) ∧
    fetch_user_data uid .requestException = (none, .failure) ∧
    (code ≠ 200 → code ≠ 404 → code ≠ 403 → code ≠ 429 →
      fetch_user_data uid (.httpResponse code m) = (none, .failure)) := by
  refine ⟨rfl, rfl, rfl, rfl, rfl, ?_⟩
  intro h200 h404 h403 h429
  simp [fetch_user_data, h200, h404, h403, h429]

/-- C6 witness: the mapping at concrete inputs, including an
unrecognized status code. -/
theorem c6_witness :
    fetch_user_data "12" (.httpResponse 500 mEmpty) = (none, .failure) ∧
    fetch_user_data "12" (.httpResponse 429 mEmpty) = (none, .rate_limited) :=
  ⟨(c6_fetch_outcome_mapping "12" mEmpty 500).2.2.2.2.2
      (by decide) (by decide) (by decide) (by decide),
   (c6_fetch_outcome_mapping "12" mEmpty 500).2.2.2.1⟩

/-! ## Claim C7 -/

/-- C7: every record appended to the table during a run satisfies the
existence invariant — flag false implies all four metric fields are
null — and a Found (200) record carries exactly the metric fields of
the response, so every field present in the response is populated. -/
theorem c7_existence_invariant :
    (∀ (env : Env) (res : FinalResult) (stop : StopReason),
      main env = .completed res stop →
      ∀ r ∈ res.newRecords, r.data_exist = false →
        r.followers_count = none ∧ r.following_count = none ∧
        r.tweet_count = none ∧ r.listed_count = none) ∧
    (∀ (uid : String) (m : PublicMetrics),
      (fetch_user_data uid (.httpResponse 200 m)).1 =
        some { authorId := uid, followers_count := m.followers_count,
               following_count := m.following_count, tweet_count := m.tweet_count,
               listed_count := m.listed_count, data_exist := true }) := by
  constructor
  · intro env res stop h r hr
    obtain ⟨hio, hres, hstop⟩ := main_completed_inv h
    have hInv := runLoop_inv env.inputRows (initState env.loadedTable)
      (inv_init env.loadedTable)
    rw [hres, finalize_newRecords] at hr
    exact hInv.1.nullAll r hr
  · intro uid m
    rfl

/-- C7 witness: the invariant evaluated on the record a 404 run appends. -/
theorem c7_witness :
    rec7.followers_count = none ∧ rec7.following_count = none ∧
    rec7.tweet_count = none ∧ rec7.listed_count = none :=
  c7_existence_invariant.1 env7 (mainRes env7) .exhausted (by decide) rec7
    (by decide) (by decide)

/-! ## Claim C10 -/

/-- C10: the HTML status report is generated and uploaded only when the
upload of the output table succeeded; when the table upload fails no
report is written or published, and the process still exits normally. -/
theorem c10_report_only_after_upload (env : Env) (res : FinalResult)
    (stop : StopReason) (h : main env = .completed res stop) :
    (res.reportWritten = true → res.uploadedTable = true) ∧
    (res.uploadedTable = false →
      res.reportWritten = false ∧ res.reportPublished = false) ∧
    processExitCode env = 0 := by
  obtain ⟨hio, hres, hstop⟩ := main_completed_inv h
  obtain ⟨hu, hw, hp⟩ := finalize_flags (env.inputRows.map Prod.fst)
    (runLoop (initState env.loadedTable) env.inputRows).1
    env.uploadTableOk env.uploadHtmlOk
  subst hres
  refine ⟨?_, ?_, ?_⟩
  · intro hwt
    rw [hu, ← hw]
    exact hwt
  · intro hut
    rw [hu] at hut
    constructor
    · rw [hw, hut]
    · rw [hp, hut]
      rfl
  · unfold processExitCode
    split <;> rfl

/-- C10 witness: a run whose table upload fails produces no report and
exits normally. -/
theorem c10_witness :
    ((mainRes env10).reportWritten = false ∧
      (mainRes env10).reportPublished = false) ∧
    processExitCode env10 = 0 :=
  ⟨(c10_report_only_after_upload env10 (mainRes env10) .exhausted
      (by decide)).2.1 (by decide),
   (c10_report_only_after_upload env10 (mainRes env10) .exhausted
      (by decide)).2.2⟩

/-! ## Claim C4 (corrected) -/

/-- C4 counterexample: when the input blob cannot be obtained, `main`
returns early (plain `return`, source line 138), so the process exits
with success status 0 rather than a failure status; Finalizing is not
reached. -/
theorem c4_counterexample :
    main env4 = .inputFailure ∧ processExitCode env4 = 0 ∧
      reachesFinalizing env4 = false :=
  ⟨rfl, rfl, rfl⟩

/-- C4 (amended): the process exits with success status 0 in every
case, including when the input blob cannot be obtained or read; an
input failure is distinguished only by skipping the Running and
Finalizing stages, which are reached in every other case. -/
theorem c4_exit_behavior (env : Env) :
    processExitCode env = 0 ∧
    (reachesFinalizing env = false ↔ env.inputOk = false) := by
  constructor
  · unfold processExitCode
    split <;> rfl
  · unfold reachesFinalizing
    cases hio : env.inputOk with
    | true => rw [main_eq env hio]
    | false => rw [main_inputFailure env hio]

/-! ## Claim C5 -/

/-- C5: whatever way the Running loop ends — exhaustion, rate limit, or
a caught unexpected exception — `main` proceeds to Finalizing: the
table is flushed (the final table is the loaded table plus everything
appended, including records still buffered when the loop stopped), and
the upload/publish step runs. -/
theorem c5_finalizing_always_runs (env : Env) (s' : RunState) (stop : StopReason)
    (hio : env.inputOk = true)
    (hrun : runLoop (initState env.loadedTable) env.inputRows = (s', stop)) :
    main env = .completed
      (finalize (env.inputRows.map Prod.fst) s'
        env.uploadTableOk env.uploadHtmlOk) stop ∧
    (finalize (env.inputRows.map Prod.fst) s'
      env.uploadTableOk env.uploadHtmlOk).table
      = env.loadedTable ++ s'.appended ∧
    (finalize (env.inputRows.map Prod.fst) s'
      env.uploadTableOk env.uploadHtmlOk).uploadedTable = env.uploadTableOk := by
  have hInv : Inv env.loadedTable s' := by
    have h := runLoop_inv env.inputRows (initState env.loadedTable)
      (inv_init env.loadedTable)
    rw [hrun] at h
    exact h
  refine ⟨?_, ?_, (finalize_flags _ _ _ _).1⟩
  · rw [main_eq env hio, hrun]
  · rw [finalize_table]
    exact hInv.1.tableEq

/-- C5 witness: a run ended by an unexpected exception, with one
appended record still buffered at the moment of the exception, reaches
Finalizing and persists it. -/
theorem c5_witness :
    main env5 = .completed
      (finalize (env5.inputRows.map Prod.fst) (loopState env5)
        env5.uploadTableOk env5.uploadHtmlOk) .errored ∧
    (finalize (env5.inputRows.map Prod.fst) (loopState env5)
      env5.uploadTableOk env5.uploadHtmlOk).table
      = env5.loadedTable ++ (loopState env5).appended ∧
    (finalize (env5.inputRows.map Prod.fst) (loopState env5)
      env5.uploadTableOk env5.uploadHtmlOk).uploadedTable = env5.uploadTableOk :=
  c5_finalizing_always_runs env5 (loopState env5) .errored (by decide) (by decide)

/-! ## Claim C1 -/

/-- C1: if the run stops on a rate limit, the table handed to Finalizing
is exactly the loaded table plus the records appended this run (as many
as the successful-append counter), every appended record comes from an
identifier strictly before the rate-limited row, no record exists for
the rate-limited identifier, and no identifier after it in input order
got a new record. -/
theorem c1_rate_limit_no_data_loss (env : Env) (res : FinalResult)
    (hnd : (env.inputRows.map Prod.fst).Nodup)
    (h : main env = .completed res .rateLimited) :
    res.table = env.loadedTable ++ res.newRecords ∧
    res.newRecords.length = res.new_users_added_today ∧
    ∃ pre uid ev post,
      env.inputRows = pre ++ (uid, ev) :: post ∧
      (∀ r ∈ res.newRecords, r.authorId ∈ pre.map Prod.fst) ∧
      uid ∉ res.table.map (·.authorId) ∧
      ∀ q ∈ post, q.1 ∉ res.newRecords.map (·.authorId) := by
  obtain ⟨hio, hres, hstop⟩ := main_completed_inv h
  have hInv : Inv env.loadedTable
      (runLoop (initState env.loadedTable) env.inputRows).1 :=
    runLoop_inv env.inputRows (initState env.loadedTable) (inv_init env.loadedTable)
  have hrun : runLoop (initState env.loadedTable) env.inputRows
      = ((runLoop (initState env.loadedTable) env.inputRows).1,
          StopReason.rateLimited) := by
    rw [hstop]
  obtain ⟨pre, uid, ev, post, d, hrows, happ, hkeys, hu⟩ :=
    runLoop_rl_decomp env.inputRows (initState env.loadedTable) _
      (inv_init env.loadedTable) hrun
  have happd : (runLoop (initState env.loadedTable) env.inputRows).1.appended = d := by
    rw [happ]
    simp [initState]
  have hnewRec : res.newRecords
      = (runLoop (initState env.loadedTable) env.inputRows).1.appended := by
    rw [hres, finalize_newRecords]
  have htab : res.table = env.loadedTable
      ++ (runLoop (initState env.loadedTable) env.inputRows).1.appended := by
    rw [hres, finalize_table]
    exact hInv.1.tableEq
  have hlen : res.newRecords.length = res.new_users_added_today := by
    rw [hnewRec, hres, finalize_new_users]
    exact hInv.1.countEq
  refine ⟨by rw [htab, hnewRec], hlen, pre, uid, ev, post, hrows, ?_, ?_, ?_⟩
  · intro r hr
    rw [hnewRec, happd] at hr
    exact hkeys r hr
  · rw [htab, List.map_append]
    intro hmem
    rcases List.mem_append.mp hmem with hm | hm
    · exact hu (hInv.1.initKeys uid hm)
    · obtain ⟨r, hrmem, hrid⟩ := List.mem_map.mp hm
      exact hu (hrid ▸ hInv.1.appKeys r hrmem)
  · intro q hq hqmem
    rw [hnewRec, happd] at hqmem
    obtain ⟨r, hrmem, hrid⟩ := List.mem_map.mp hqmem
    have hqpre : q.1 ∈ pre.map Prod.fst := hrid ▸ hkeys r hrmem
    rw [hrows, List.map_append] at hnd
    have hdisj := (List.nodup_append.mp hnd).2.2
    refine hdisj hqpre ?_
    rw [List.map_cons]
    exact List.mem_cons_of_mem _ (List.mem_map_of_mem Prod.fst hq)

/-- C1 witness: a run rate-limited on its second identifier keeps the
one record appended before the limit and loses nothing. -/
theorem c1_witness :
    (mainRes env1).table = env1.loadedTable ++ (mainRes env1).newRecords ∧
    (mainRes env1).newRecords.length = (mainRes env1).new_users_added_today :=
  ⟨(c1_rate_limit_no_data_loss env1 (mainRes env1) (by decide) (by decide)).1,
   (c1_rate_limit_no_data_loss env1 (mainRes env1) (by decide) (by decide)).2.1⟩

/-! ## Claim C2 (corrected) -/

set_option maxRecDepth 400000 in
/-- C2 counterexample: with one transport error and 99 successes in the
first 100 input rows, the loop performs its one periodic save at the
100th fetch attempt, at a moment when only 99 — not a multiple of
100 — successful appends have happened (`save_log = [99]`): the
counter that triggers the periodic save counts failed fetch attempts
too, not only successful appends. -/
theorem c2_counterexample :
    mainStop env2 = some .exhausted ∧
    (mainResult env2).map (·.mid_saves) = some 1 ∧
    (mainResult env2).map (·.save_log) = some [99] ∧
    (mainResult env2).map (·.new_users_added_today) = some 99 := by
  decide

/-- C2 (amended): the periodic checkpoint is driven by the count of
fetch attempts (each non-skipped iteration, successful or failed), not
of successful appends: a mid-loop save fires exactly when that counter
reaches a multiple of `save_interval` with data pending, and after any
prefix of the input at most `save_interval − 1 = 99` appended records
sit unpersisted in the buffer. -/
theorem c2_checkpoint_behavior :
    (∀ (loaded : List ProfileRecord) (pre : List (String × FetchEvent)),
      ((runLoop (initState loaded) pre).1).new_data.length ≤ save_interval - 1) ∧
    (∀ s : RunState, (bumpAndMaybeSave s).mid_saves =
      if (s.request_count + 1) % save_interval = 0 ∧ s.new_data ≠ []
      then s.mid_saves + 1 else s.mid_saves) := by
  constructor
  · intro loaded pre
    have h := runLoop_inv pre (initState loaded) (inv_init loaded)
    have hb := h.2
    have hlt : ((runLoop (initState loaded) pre).1).request_count % save_interval
        < save_interval := Nat.mod_lt _ (by decide)
    unfold save_interval at *
    omega
  · intro s
    unfold bumpAndMaybeSave
    split <;> rfl

/-! ## Claim C3 (corrected) -/

/-- C3 counterexample: with a loaded table whose key `"X"` is not in the
input list and a single input identifier skipped by a transport error,
the code reports 1 remaining (the set difference `input \ keys`), while
`|input identifiers| − |table keys| = 1 − 1 = 0`. -/
theorem c3_counterexample :
    (mainResult env3).map (·.users_remaining) = some 1 ∧
    (mainResult env3).map
      (fun res => (env3.inputRows.map Prod.fst).toFinset.card
        - (res.table.map (·.authorId)).toFinset.card) = some 0 := by
  decide

/-- Counting the identifiers of `A` outside `K` is the cardinality of
the set difference. -/
theorem filter_not_mem_length (A K : List String) :
    ((A.dedup).filter (fun id => decide (id ∉ K))).length
      = (A.toFinset \ K.toFinset).card := by
  have hn : ((A.dedup).filter (fun id => decide (id ∉ K))).Nodup :=
    A.nodup_dedup.filter _
  rw [← List.toFinset_card_of_nodup hn]
  congr 1
  ext x
  simp [List.mem_toFinset, List.mem_filter, List.mem_dedup, Finset.mem_sdiff]

/-- C3 (amended): the remaining count published after finalization is
the cardinality of the set difference `input identifiers \ table keys`;
this equals `|input identifiers| − |table keys|` exactly when every
table key occurs in the input list. -/
theorem c3_users_remaining (env : Env) (res : FinalResult) (stop : StopReason)
    (h : main env = .completed res stop) :
    res.users_remaining =
      ((env.inputRows.map Prod.fst).toFinset
        \ (res.table.map (·.authorId)).toFinset).card ∧
    ((res.table.map (·.authorId)).toFinset ⊆ (env.inputRows.map Prod.fst).toFinset →
      res.users_remaining =
        (env.inputRows.map Prod.fst).toFinset.card
          - (res.table.map (·.authorId)).toFinset.card) := by
  obtain ⟨hio, hres, hstop⟩ := main_completed_inv h
  subst hres
  rw [finalize_remaining, finalize_table]
  constructor
  · exact filter_not_mem_length _ _
  · intro hsub
    rw [filter_not_mem_length _ _, Finset.card_sdiff hsub]

/-- C3 witness: on a clean run from an empty table both quantities agree. -/
theorem c3_witness :
    (mainRes env3w).users_remaining =
      ((env3w.inputRows.map Prod.fst).toFinset
        \ ((mainRes env3w).table.map (·.authorId)).toFinset).card ∧
    (mainRes env3w).users_remaining =
      (env3w.inputRows.map Prod.fst).toFinset.card
        - ((mainRes env3w).table.map (·.authorId)).toFinset.card :=
  ⟨(c3_users_remaining env3w (mainRes env3w) .exhausted (by decide)).1,
   (c3_users_remaining env3w (mainRes env3w) .exhausted (by decide)).2 (by decide)⟩

/-! ## Claim C8 (corrected) -/

/-- C8 counterexample: the first run skips its only identifier on a
transport error; re-running with the unchanged input list from the table
the first run produced appends a new record (the fetch now succeeds), so
the checkpoint table does not stay unchanged. -/
theorem c8_counterexample :
    (mainResult env8a).map (·.table) = some env8b.loadedTable ∧
    (mainResult env8b).map (·.table) ≠ some env8b.loadedTable := by
  decide

/-- C8 (amended): existing records are never modified — every completed
run's table is the loaded table with this run's new records appended,
and no appended record reuses a loaded key; consequently, when the
loaded table already covers every input identifier (as after a first
run that processed everything), a second run over the unchanged input
leaves the table identical and performs no fetches at all. -/
theorem c8_idempotence :
    (∀ (env : Env) (res : FinalResult) (stop : StopReason),
      main env = .completed res stop →
      res.table = env.loadedTable ++ res.newRecords ∧
      ∀ r ∈ res.newRecords, r.authorId ∉ env.loadedTable.map (·.authorId)) ∧
    (∀ env : Env, env.inputOk = true →
      (∀ id ∈ env.inputRows.map Prod.fst, id ∈ env.loadedTable.map (·.authorId)) →
      main env = .completed
        (finalize (env.inputRows.map Prod.fst) (initState env.loadedTable)
          env.uploadTableOk env.uploadHtmlOk) .exhausted ∧
      (finalize (env.inputRows.map Prod.fst) (initState env.loadedTable)
        env.uploadTableOk env.uploadHtmlOk).table = env.loadedTable ∧
      (finalize (env.inputRows.map Prod.fst) (initState env.loadedTable)
        env.uploadTableOk env.uploadHtmlOk).newRecords = [] ∧
      (finalize (env.inputRows.map Prod.fst) (initState env.loadedTable)
        env.uploadTableOk env.uploadHtmlOk).request_count = 0) := by
  constructor
  · intro env res stop h
    obtain ⟨hio, hres, hstop⟩ := main_completed_inv h
    have hInv := runLoop_inv env.inputRows (initState env.loadedTable)
      (inv_init env.loadedTable)
    subst hres
    constructor
    · rw [finalize_table, finalize_newRecords]
      exact hInv.1.tableEq
    · rw [finalize_newRecords]
      exact hInv.1.appFresh
  · intro env hio hall
    have hrun : runLoop (initState env.loadedTable) env.inputRows
        = (initState env.loadedTable, .exhausted) := by
      apply runLoop_all_skipped
      intro p hp
      have hin := hall p.1 (List.mem_map_of_mem Prod.fst hp)
      simpa [initState] using hin
    refine ⟨?_, ?_, ?_, ?_⟩
    · rw [main_eq env hio, hrun]
    · rw [finalize_table]
      simp [initState]
    · rw [finalize_newRecords]
      simp [initState]
    · rw [finalize_request]
      simp [initState]

/-- C8 witness: a run whose loaded table already covers the input list
changes nothing and issues no request. -/
theorem c8_witness :
    main env8w = .completed
      (finalize (env8w.inputRows.map Prod.fst) (initState env8w.loadedTable)
        env8w.uploadTableOk env8w.uploadHtmlOk) .exhausted ∧
    (finalize (env8w.inputRows.map Prod.fst) (initState env8w.loadedTable)
      env8w.uploadTableOk env8w.uploadHtmlOk).table = env8w.loadedTable ∧
    (finalize (env8w.inputRows.map Prod.fst) (initState env8w.loadedTable)
      env8w.uploadTableOk env8w.uploadHtmlOk).newRecords = [] ∧
    (finalize (env8w.inputRows.map Prod.fst) (initState env8w.loadedTable)
      env8w.uploadTableOk env8w.uploadHtmlOk).request_count = 0 :=
  c8_idempotence.2 env8w (by decide) (by decide)

/-! ## Claim C9 (corrected) -/

/-- C9 counterexample: a run with no rate limit and no transport error
(the single fetch is a 404 success) but whose loaded table carries the
key `"X"` that is not in the input list ends with `"X"` among the table
keys, so the key set does not equal the input identifier set. -/
theorem c9_counterexample :
    mainStop env9 = some .exhausted ∧
    (mainResult env9).map (fun res =>
      decide ("X" ∈ res.table.map (·.authorId))) = some true ∧
    decide ("X" ∈ env9.inputRows.map Prod.fst) = false := by
  decide

/-- C9 (amended): after a full run in which every fetch succeeds (no
rate limit, no transport error), the input has no duplicate identifiers,
and every loaded key occurs in the input list (e.g. an empty first
table), the loop exhausts the input, the table's key set equals the
input identifier set, and the records appended are exactly the
not-yet-loaded identifiers in input-list order. -/
theorem c9_completeness (env : Env) (res : FinalResult) (stop : StopReason)
    (hnd : (env.inputRows.map Prod.fst).Nodup)
    (hsub : ∀ k ∈ env.loadedTable.map (·.authorId), k ∈ env.inputRows.map Prod.fst)
    (hall : ∀ p ∈ env.inputRows, ∃ r, p.2 = FetchEvent.resp r ∧
      (fetch_user_data p.1 r).2 = .success)
    (h : main env = .completed res stop) :
    stop = .exhausted ∧
    (∀ id, id ∈ res.table.map (·.authorId) ↔ id ∈ env.inputRows.map Prod.fst) ∧
    res.newRecords.map (·.authorId)
      = (env.inputRows.map Prod.fst).filter
          (fun id => decide (id ∉ env.loadedTable.map (·.authorId))) := by
  obtain ⟨hio, hres, hstop⟩ := main_completed_inv h
  obtain ⟨h1, h2, h3⟩ := runLoop_all_success env.inputRows (initState env.loadedTable)
    (inv_init env.loadedTable) hnd hall
  have hInv := runLoop_inv env.inputRows (initState env.loadedTable)
    (inv_init env.loadedTable)
  subst hres
  refine ⟨by rw [hstop, h1], ?_, ?_⟩
  · intro id
    rw [finalize_table, hInv.1.tableEq, List.map_append, List.mem_append]
    constructor
    · rintro (hm | hm)
      · exact hsub id hm
      · rw [h2] at hm
        simp only [initState, List.append_nil, List.map_nil, List.nil_append,
          List.mem_filter] at hm
        exact hm.1
    · intro hm
      by_cases hidl : id ∈ env.loadedTable.map (·.authorId)
      · exact Or.inl hidl
      · right
        rw [h2]
        simp only [initState, List.append_nil, List.map_nil, List.nil_append,
          List.mem_filter]
        exact ⟨hm, by simpa using hidl⟩
  · rw [finalize_newRecords, h2]
    simp [initState]

/-- C9 witness: a clean two-identifier run from an empty table covers
the input exactly, in order. -/
theorem c9_witness :
    ("2" ∈ (mainRes env9w).table.map (·.authorId)
      ↔ "2" ∈ env9w.inputRows.map Prod.fst) ∧
    (mainRes env9w).newRecords.map (·.authorId)
      = (env9w.inputRows.map Prod.fst).filter
          (fun id => decide (id ∉ env9w.loadedTable.map (·.authorId))) :=
  ⟨(c9_completeness env9w (mainRes env9w) .exhausted (by decide) (by decide)
      (by
        intro p hp
        simp only [env9w, List.mem_cons, List.mem_singleton] at hp
        rcases hp with rfl | rfl | h
        · exact ⟨.httpResponse 200 mFull, rfl, by decide⟩
        · exact ⟨.httpResponse 404 mEmpty, rfl, by decide⟩
        · exact absurd h (List.not_mem_nil p))
      (by decide)).2.1 "2",
   (c9_completeness env9w (mainRes env9w) .exhausted (by decide) (by decide)
      (by
        intro p hp
        simp only [env9w, List.mem_cons, List.mem_singleton] at hp
        rcases hp with rfl | rfl | h
        · exact ⟨.httpResponse 200 mFull, rfl, by decide⟩
        · exact ⟨.httpResponse 404 mEmpty, rfl, by decide⟩
        · exact absurd h (List.not_mem_nil p))
      (by decide)).2.2⟩

end UserScript
